import Mathlib

/-!
# Verification of the EPW future-weather morphing engine

A shallow embedding, in Lean 4, of the core of the `future_weather_files`
repository: the per-variable morphing algorithms
(`src/morphers/*.py`), the difference-table parser, the pipeline manager and
the EPW record writer (`src/utils/epw_morphing_manager.py`).

Numeric modelling conventions:
* On paths where the program's floats behave like real numbers, Python/numpy
  floats are modelled as exact rationals (`ℚ`); the dew-point formulas use
  real transcendental functions and are modelled over `ℝ`.
* `pandas.Series` values are modelled as `List ℚ` (resp. `List ℝ`);
  positional indexing that can raise `KeyError`/`IndexError` is modelled with
  `List.get?`.
* Where the program's numpy semantics produce IEEE special values — division
  by a `numpy.float64` zero yields `±inf`/`nan` with a `RuntimeWarning`
  (it never raises `ZeroDivisionError`), `np.log(0.0)` yields `-inf`,
  arithmetic and comparisons propagate `nan` — those paths are modelled by
  the `NpFloat` type (reals extended with `±inf` and `nan` and the IEEE
  propagation rules for the operations the source uses). Rounding,
  overflow/underflow of `exp`, and signed zeros are not modelled.
-/

namespace FWF

/-- The fixed hours-per-month table `[31*24, 28*24, ...]` that every morpher
hard-codes (`hours_per_month` in the source). -/
def hoursPerMonth : List ℕ :=
  [31*24, 28*24, 31*24, 30*24, 31*24, 30*24, 31*24, 31*24, 30*24, 31*24, 30*24, 31*24]

/-- Cumulative start hour of (0-based) month `m`: the running `start_idx` of
`calculate_monthly_statistics`. -/
def monthStart : ℕ → ℕ
  | 0 => 0
  | m + 1 => monthStart m + hoursPerMonth.getD m 0

/-- The hourly sub-series of (0-based) month `m`
(`hourly_data[start_idx:end_idx]` in `calculate_monthly_statistics`). -/
def monthSlice (base : List ℚ) (m : ℕ) : List ℚ :=
  (base.drop (monthStart m)).take (hoursPerMonth.getD m 0)

/-- `pandas.Series.mean` of a slice, as an exact rational. -/
def meanQ (l : List ℚ) : ℚ := l.sum / l.length

/-- `pandas.Series.max` of a (nonempty) slice. -/
def listMax (l : List ℚ) : ℚ := l.foldl max (l.headD 0)

/-- `pandas.Series.min` of a (nonempty) slice. -/
def listMin (l : List ℚ) : ℚ := l.foldl min (l.headD 0)

/-- The monthly `'mean'` statistic of `calculate_monthly_statistics`. -/
def monthMean (base : List ℚ) (m : ℕ) : ℚ := meanQ (monthSlice base m)

/-- The monthly `'max'` statistic of `calculate_monthly_statistics`. -/
def monthMax (base : List ℚ) (m : ℕ) : ℚ := listMax (monthSlice base m)

/-- The monthly `'min'` statistic of `calculate_monthly_statistics`. -/
def monthMin (base : List ℚ) (m : ℕ) : ℚ := listMin (monthSlice base m)

/-!
## The shared month-walking hour loop

Every morpher's `morph_variable` walks the hours with the same state
`(current_month, month_hour_count)`, starting at `(1, 0)`:

```
if month_hour_count >= hours_per_month[current_month - 1]:
    month_hour_count = 0
    current_month += 1
    if current_month > 12:
        current_month = 1
... use current_month ...
month_hour_count += 1
```
-/

/-- One execution of the "move to next month" check at the top of the hour
loop, on the state `(current_month, month_hour_count)`. -/
def monthStep (s : ℕ × ℕ) : ℕ × ℕ :=
  if hoursPerMonth.getD (s.1 - 1) 0 ≤ s.2 then
    (if 12 < s.1 + 1 then 1 else s.1 + 1, 0)
  else s

/-- The state passed to the next hour: the checked state with
`month_hour_count += 1`. -/
def monthAdvance (s : ℕ × ℕ) : ℕ × ℕ := ((monthStep s).1, (monthStep s).2 + 1)

/-- The hour loop shared by the temperature, humidity, wind and precipitable
water morphers: applies `f current_month value` to each hour, threading the
`(current_month, month_hour_count)` state. -/
def monthlyMapAux (f : ℕ → ℚ → ℚ) : List ℚ → ℕ × ℕ → List ℚ
  | [], _ => []
  | x :: xs, s => f (monthStep s).1 x :: monthlyMapAux f xs (monthAdvance s)

/-- The hour loop started from `current_month = 1`, `month_hour_count = 0`. -/
def monthlyMap (f : ℕ → ℚ → ℚ) (base : List ℚ) : List ℚ :=
  monthlyMapAux f base (1, 0)

/-!
## Temperature morpher (`dry_bulb_temp_morpher.py`)
-/

/-- The per-month scaling factor `αdbtₘ` of `TemperatureMorpher.morph_variable`:
the division `alpha = (delta_tmax[month] - delta_tmin[month]) / (dbt0_max -
dbt0_min)`, as exact-rational division. The surrounding `try/except
ZeroDivisionError` fallback to `1.0` is dead code in the program: `dbt0_max`
and `dbt0_min` are pandas reductions of type `numpy.float64`, whose zero
division yields `inf`/`nan` with a `RuntimeWarning` instead of raising (see
`npAlphaTemp` for the faithful behaviour at `dbt0_max = dbt0_min`, and C8).
The exact-rational value is therefore meaningful only when
`dbt0_max ≠ dbt0_min`, which is the hypothesis of C1. -/
def alphaTemp (base dmax dmin : List ℚ) (m : ℕ) : ℚ :=
  (dmax.getD m 0 - dmin.getD m 0) / (monthMax base m - monthMin base m)

/-- `TemperatureMorpher.morph_variable`'s hour loop:
`morphed_temp = dbt0 + delta_t + alpha * (dbt0 - dbt0_mean)` with the monthly
statistics of the baseline and the three parsed delta lists. -/
def morphTemp (base dtemp dmax dmin : List ℚ) : List ℚ :=
  monthlyMap
    (fun cm x =>
      x + dtemp.getD (cm - 1) 0 +
        alphaTemp base dmax dmin (cm - 1) * (x - monthMean base (cm - 1)))
    base

/-!
## Relative humidity morpher (`relative_humidity_morpher.py`)
-/

/-- `RelativeHumidityMorpher.morph_variable`'s hour loop:
`morphed_value = rh0 + delta_rh` followed by
`morphed_value = max(0, min(100, morphed_value))`. -/
def morphRH (base drh : List ℚ) : List ℚ :=
  monthlyMap (fun cm x => max 0 (min 100 (x + drh.getD (cm - 1) 0))) base

/-!
## Wind speed morpher (`wind_speed_morpher.py`)
-/

/-- `normalize_wind_speeds`: the historic monthly value normalized by the mean
of the 12 historic monthly values. -/
def histNorm (hist : List ℚ) (m : ℕ) : ℚ := hist.getD m 0 / meanQ hist

/-- The list of the baseline's 12 monthly means
(`[stats['mean'] for stats in base_monthly_stats.values()]`). -/
def baseMonthlyMeans (base : List ℚ) : List ℚ :=
  (List.range 12).map (monthMean base)

/-- `normalize_wind_speeds`: the baseline monthly mean normalized by the mean
of the 12 baseline monthly means. -/
def baseNorm (base : List ℚ) (m : ℕ) : ℚ :=
  (baseMonthlyMeans base).getD m 0 / meanQ (baseMonthlyMeans base)

/-- `WindSpeedMorpher.morph_variable`'s per-month scaling factor:
`wind_change = ((hist_norm[m] - base_norm[m]) / base_norm[m] * 100) if base_norm[m] > 0 else 0`
then `alpha = 1 + (wind_change / 100)`. -/
def alphaWind (base hist : List ℚ) (m : ℕ) : ℚ :=
  let windChange :=
    if 0 < baseNorm base m then
      (histNorm hist m - baseNorm base m) / baseNorm base m * 100
    else 0
  1 + windChange / 100

/-- `WindSpeedMorpher.morph_variable`'s hour loop:
`morphed_speed = (alpha * ws0) * 0.514444` (the knots → m/s constant). -/
def morphWind (base hist : List ℚ) : List ℚ :=
  monthlyMap (fun cm x => (alphaWind base hist (cm - 1) * x) * 0.514444) base

/-!
## Physical-plausibility validation (`base_morpher.py`, `validate_value`)
-/

/-- The per-city `"TEMP"` entries of the literal `ranges` table of
`BaseMorpher.validate_value`. -/
def tempRanges : List (String × (ℚ × ℚ)) :=
  [("Barcelona", (0, 40)), ("Copenhagen", (-10, 35)), ("Frankfurt", (-10, 35)),
   ("Geneva", (-10, 35)), ("Hamburg", (-10, 35)), ("London", (-5, 35)),
   ("Munich", (-15, 35)), ("Oslo", (-20, 35)), ("Stockholm", (-20, 35)),
   ("Vienna", (-10, 35))]

/-- `BaseMorpher.validate_value`: returns `True` when `variable_type` has no
entry in the `ranges` table, otherwise checks the (city-specific or default)
bounds. -/
def validateValue (value : ℚ) (variableType city : String) : Bool :=
  if variableType = "TEMP" then
    let r := ((tempRanges.find? (fun p => p.1 == city)).map Prod.snd).getD (-30, 45)
    decide (r.1 ≤ value ∧ value ≤ r.2)
  else if variableType = "WIND" then decide (0 ≤ value ∧ value ≤ 30)
  else if variableType = "RH" then decide (0 ≤ value ∧ value ≤ 100)
  else if variableType = "PREC" then decide (0 ≤ value ∧ value ≤ 500)
  else true

/-- The out-of-range warning condition of `SolarRadiationMorpher.morph_variable`:
`if not self.validate_value(morphed_rad, 'SOLRAD', city)`. -/
def solarOutOfRangeWarning (value : ℚ) (city : String) : Bool :=
  !(validateValue value "SOLRAD" city)

/-!
## Difference-table parser (`TemperatureMorpher.read_dif_file`)

Lines are modelled as `String`s (processed through their character lists);
Python's `float(chunk)` is modelled for the plain decimal grammar
(optional surrounding whitespace, optional sign, digits with an optional
decimal point) that the HadCM3 tables use; the parsed number is kept as a
signed decimal mantissa and a fraction-digit count, and turned into the exact
rational it denotes by `toQ`. The sentinel test `float(chunk) < 9999` is
performed on the mantissa (an equivalent integer comparison, see
`toQ_lt_sentinel_iff`).
-/

/-- `sub in line` on character lists (Python's substring containment). -/
def containsSub : List Char → List Char → Bool
  | [], sub => sub.isEmpty
  | c :: rest, sub => sub.isPrefixOf (c :: rest) || containsSub rest sub

/-- The characters after the first occurrence of `marker`
(Python's `line.split(marker)[1]` for a line containing `marker` once). -/
def afterFirst (marker : List Char) : List Char → List Char
  | [] => []
  | c :: cs =>
    if marker.isPrefixOf (c :: cs) then (c :: cs).drop marker.length
    else afterFirst marker cs

/-- Python's `str.strip()`. -/
def stripChars (cs : List Char) : List Char :=
  ((cs.dropWhile Char.isWhitespace).reverse.dropWhile Char.isWhitespace).reverse

/-- `line[i:i+8] for i in range(0, len(line), 8)`: split into 8-character
chunks (structural recursion on a length fuel; each step consumes at least
one character, so `cs.length` steps always suffice). -/
def chunk8Aux : ℕ → List Char → List (List Char)
  | 0, _ => []
  | _, [] => []
  | fuel + 1, c :: cs => (c :: cs.take 7) :: chunk8Aux fuel (cs.drop 7)

/-- `line[i:i+8] for i in range(0, len(line), 8)`. -/
def chunk8 (cs : List Char) : List (List Char) := chunk8Aux cs.length cs

/-- Decimal digit run to a natural number. -/
def digitsToNat (ds : List Char) : ℕ :=
  ds.foldl (fun a c => 10 * a + (c.toNat - 48)) 0

/-- Python `float(chunk)` on the decimal grammar: returns the signed mantissa
together with the number of digits after the decimal point, or `none` when the
chunk does not parse (Python raises `ValueError`). -/
def parseDecimal (cs : List Char) : Option (ℤ × ℕ) :=
  let t := stripChars cs
  let sp : ℤ × List Char :=
    match t with
    | '-' :: r => (-1, r)
    | '+' :: r => (1, r)
    | r => (1, r)
  let ip := sp.2.takeWhile Char.isDigit
  let rest := sp.2.drop ip.length
  match rest with
  | [] => if ip.isEmpty then none else some (sp.1 * digitsToNat ip, 0)
  | '.' :: fr =>
    let fd := fr.takeWhile Char.isDigit
    if ¬(fr.drop fd.length).isEmpty then none
    else if ip.isEmpty ∧ fd.isEmpty then none
    else some (sp.1 * digitsToNat (ip ++ fd), fd.length)
  | _ => none

/-- The exact rational denoted by a parsed decimal. -/
def toQ (p : ℤ × ℕ) : ℚ := (p.1 : ℚ) / 10 ^ p.2

/-- One line's `numbers` list:
`[float(chunk) for chunk in chunks if chunk.strip() and float(chunk) < 9999]`,
with `none` when some non-blank chunk fails to parse (the line's
`ValueError` handler then skips the line). -/
def lineNumbers (line : String) : Option (List ℚ) :=
  (chunk8 line.toList).foldl
    (fun acc chunk =>
      match acc with
      | none => none
      | some vs =>
        if (stripChars chunk).isEmpty then some vs
        else
          match parseDecimal chunk with
          | none => none
          | some p => if p.1 < 9999 * 10 ^ p.2 then some (vs ++ [toQ p]) else some vs)
    (some [])

/-- The header substrings skipped by `TemperatureMorpher.read_dif_file`. -/
def difHeaderTokens : List String :=
  ["IPCC", "Grid is", "Mean Change", "HADCM", "Format is", "Maximum",
   "Minimum", "format is", "missing code"]

/-- The mutable state of `read_dif_file`'s line loop:
`monthly_values`, `current_month`, `month_value`. -/
structure DifState where
  monthlyValues : List ℚ
  currentMonth : Option (List Char)
  monthValue : Option ℚ
deriving Repr

/-- One iteration of `read_dif_file`'s line loop. -/
def processDifLine (st : DifState) (line : String) : DifState :=
  if containsSub line.toList "Mean Change values for".toList then st
  else if containsSub line.toList "Mean daily".toList ||
      containsSub line.toList "Maximum daily".toList ||
      containsSub line.toList "Minimum daily".toList then st
  else if containsSub line.toList "Month is".toList then
    { monthlyValues :=
        match st.monthValue, st.currentMonth with
        | some v, some _ => st.monthlyValues ++ [v]
        | _, _ => st.monthlyValues
      currentMonth := some (stripChars (afterFirst "Month is".toList line.toList))
      monthValue := none }
  else if difHeaderTokens.any (fun t => containsSub line.toList t.toList) then st
  else
    match lineNumbers line with
    | none => st
    | some nums =>
      match st.monthValue, nums with
      | none, n :: _ => { st with monthValue := some n }
      | _, _ => st

/-- The `monthly_values` list accumulated by `read_dif_file` over all lines,
including the final `if month_value is not None` flush. -/
def difCollect (lines : List String) : List ℚ :=
  let st := lines.foldl processDifLine ⟨[], none, none⟩
  match st.monthValue with
  | some v => st.monthlyValues ++ [v]
  | none => st.monthlyValues

/-- `TemperatureMorpher.read_dif_file` on the file's lines: `monthly_values[:12]`
when at least 12 monthly values were found (with only a warning when more
than 12), and `None` (via the raised `ValueError`) otherwise. -/
def readDifFile (lines : List String) : Option (List ℚ) :=
  if 12 ≤ (difCollect lines).length then some ((difCollect lines).take 12)
  else none

/-- Python truthiness of a morph/parse result: `None` and the empty list are
falsy (`if not all([...])`, `if morphed_values:`). -/
def truthy (o : Option (List ℚ)) : Bool :=
  match o with
  | none => false
  | some l => !l.isEmpty

/-- `TemperatureMorpher.morph_variable` at the variable level: fails (returns
`None`) when one of the three difference files does not yield a (truthy)
delta list (`if not all([delta_tmax, delta_tmin, delta_temp])`), and
otherwise runs the total hour loop. -/
def morphVariableTemp (base : List ℚ) (ftmax ftmin ftemp : List String) :
    Option (List ℚ) :=
  if truthy (readDifFile ftmax) && truthy (readDifFile ftmin) &&
      truthy (readDifFile ftemp) then
    some (morphTemp base ((readDifFile ftemp).getD [])
      ((readDifFile ftmax).getD []) ((readDifFile ftmin).getD []))
  else none

/-!
## Dew point morpher (`dew_point_temp_morpher.py`)

The ASHRAE formulas use `exp`, `log` and a fractional power. Two models are
used. The definitions in this section idealize the hourly arithmetic over `ℝ`
with Lean's total `Real.log`/`Real.rpow`; they capture the loop structure, the
per-hour `except` fallback and the final empty-result test (C7), but not what
the program's floats do at a non-positive partial pressure: there
`np.log(0.0)` returns `-inf` with a `RuntimeWarning` (it does not raise, so
the per-hour handler does not fire) and the polynomial evaluates to `nan`,
which both `dpt < 0` and the `dpt > future_temp[hour]` clamp silently pass
through, because every comparison with `nan` is `False`. That IEEE
special-value behaviour is modelled faithfully by `npDewPoint`/`npDewHour`
over `NpFloat` below (C2). Positional access to the morphed
temperature/humidity series, which raises `KeyError` past the end of the
series and is then caught by the per-hour handler, is modelled with
`List.get?`.
-/

/-- `calculate_saturation_pressure`: `0.611 * exp((17.27 * t) / (237.7 + t))`. -/
noncomputable def calculateSaturationPressure (dryBulbTemp : ℝ) : ℝ :=
  0.611 * Real.exp ((17.27 * dryBulbTemp) / (237.7 + dryBulbTemp))

/-- `calculate_partial_pressure`: `(rh / 100.0) * saturation_pressure`. -/
noncomputable def calculatePartialPressure (rh saturationPressure : ℝ) : ℝ :=
  (rh / 100.0) * saturationPressure

/-- `calculate_dew_point`: the ASHRAE polynomial in `alpha = ln(pw)` with the
sub-zero fallback polynomial when the principal branch is negative
(constants `C14`–`C18` from `DewPointMorpher.__init__`). This idealized form
uses Lean's total `Real.log`; it agrees with the program only for `pw > 0` —
the program's value at `pw = 0` is `nan` and is modelled by `npDewPoint`. -/
noncomputable def calculateDewPoint (pw : ℝ) : ℝ :=
  let alpha := Real.log pw
  let dpt := 6.54 + 14.526 * alpha + 0.7389 * alpha ^ 2 + 0.09486 * alpha ^ 3 +
    0.4569 * pw ^ (0.1984 : ℝ)
  if dpt < 0 then 6.09 + 12.608 * alpha + 0.4959 * alpha ^ 2 else dpt

/-- One hour of `DewPointMorpher.morph_variable`: the ASHRAE chain followed by
`if dpt > future_temp[hour]: dpt = future_temp[hour]`. Over `ℝ` the clamp is
always effective; in the program a `nan` dew point makes the comparison
`False` and escapes the clamp — that path is modelled by `npDewHour`. -/
noncomputable def dewHour (t rh : ℝ) : ℝ :=
  let dpt := calculateDewPoint (calculatePartialPressure rh (calculateSaturationPressure t))
  if t < dpt then t else dpt

/-- `DewPointMorpher.morph_variable`'s hour loop over `range(len(base_data))`:
on an hour where reading `future_temp[hour]`/`future_rh[hour]` raises, the
per-hour `except` appends `float(base_data[hour])` instead; an empty result
list is reported as a failure (`if morphed_dpt: ... else: return None`). -/
noncomputable def morphDewPoint (base temp rh : List ℝ) : Option (List ℝ) :=
  let out := (List.range base.length).map fun h =>
    match temp.get? h, rh.get? h with
    | some t, some r => dewHour t r
    | _, _ => base.getD h 0
  if out.isEmpty then none else some out

/-!
## IEEE special values (`numpy.float64` semantics)

Where the program's arithmetic leaves the reals — division of a
`numpy.float64` by zero, `np.log(0.0)` — numpy produces `±inf`/`nan` with a
`RuntimeWarning` and never raises. `NpFloat` models a `numpy.float64` as a
real number extended with `+inf`, `-inf` and `nan`, with the IEEE-754
propagation rules for exactly the operations the source uses: `inf` and `nan`
propagate through `+`, `-`, `*`, `/`; `inf - inf` and `inf + (-inf)` are
`nan`; `inf * 0` is `nan`; `x / 0` is `±inf` by the sign of `x` (`nan` for
`0 / 0`); `log 0 = -inf`, `log x = nan` for `x < 0`; every comparison with
`nan` is `False`. Rounding, overflow/underflow of `exp`, and signed zeros are
not modelled (the program's zero denominators arise as `x - x = +0.0`, so the
unsigned zero is the relevant one).
-/

/-- A `numpy.float64`: a real number, `+inf`, `-inf` or `nan`. -/
inductive NpFloat where
  | fin (x : ℝ)
  | pinf
  | ninf
  | nan

/-- IEEE addition on `NpFloat`: `inf + (-inf) = nan`, `nan` propagates. -/
noncomputable def npAdd : NpFloat → NpFloat → NpFloat
  | .fin x, .fin y => .fin (x + y)
  | .fin _, .pinf => .pinf
  | .fin _, .ninf => .ninf
  | .pinf, .fin _ => .pinf
  | .ninf, .fin _ => .ninf
  | .pinf, .pinf => .pinf
  | .ninf, .ninf => .ninf
  | .pinf, .ninf => .nan
  | .ninf, .pinf => .nan
  | _, _ => .nan

/-- IEEE subtraction on `NpFloat`: `inf - inf = nan`, `nan` propagates. -/
noncomputable def npSub : NpFloat → NpFloat → NpFloat
  | .fin x, .fin y => .fin (x - y)
  | .fin _, .pinf => .ninf
  | .fin _, .ninf => .pinf
  | .pinf, .fin _ => .pinf
  | .ninf, .fin _ => .ninf
  | .pinf, .ninf => .pinf
  | .ninf, .pinf => .ninf
  | .pinf, .pinf => .nan
  | .ninf, .ninf => .nan
  | _, _ => .nan

/-- IEEE multiplication on `NpFloat`: `inf * 0 = nan`, signs multiply,
`nan` propagates. -/
noncomputable def npMul : NpFloat → NpFloat → NpFloat
  | .fin x, .fin y => .fin (x * y)
  | .fin x, .pinf => if 0 < x then .pinf else if x < 0 then .ninf else .nan
  | .fin x, .ninf => if 0 < x then .ninf else if x < 0 then .pinf else .nan
  | .pinf, .fin y => if 0 < y then .pinf else if y < 0 then .ninf else .nan
  | .ninf, .fin y => if 0 < y then .ninf else if y < 0 then .pinf else .nan
  | .pinf, .pinf => .pinf
  | .ninf, .ninf => .pinf
  | .pinf, .ninf => .ninf
  | .ninf, .pinf => .ninf
  | _, _ => .nan

/-- IEEE division on `NpFloat`: a finite numerator over `(+)0.0` is `±inf` by
the numerator's sign (`nan` for `0/0`), with a `RuntimeWarning` — numpy never
raises `ZeroDivisionError` here. `nan` propagates, `inf/inf = nan`. -/
noncomputable def npDiv : NpFloat → NpFloat → NpFloat
  | .fin x, .fin y =>
      if y = 0 then (if 0 < x then .pinf else if x < 0 then .ninf else .nan)
      else .fin (x / y)
  | .fin _, .pinf => .fin 0
  | .fin _, .ninf => .fin 0
  | .pinf, .fin y => if 0 ≤ y then .pinf else .ninf
  | .ninf, .fin y => if 0 ≤ y then .ninf else .pinf
  | _, _ => .nan

/-- `np.log` on `NpFloat`: `log 0 = -inf`, `log x = nan` for `x < 0`, both
with a `RuntimeWarning` and no exception. -/
noncomputable def npLog : NpFloat → NpFloat
  | .fin x => if 0 < x then .fin (Real.log x) else if x = 0 then .ninf else .nan
  | .pinf => .pinf
  | _ => .nan

/-- `np.exp` on `NpFloat` (overflow/underflow to `inf`/`0.0` not modelled). -/
noncomputable def npExp : NpFloat → NpFloat
  | .fin x => .fin (Real.exp x)
  | .pinf => .pinf
  | .ninf => .fin 0
  | .nan => .nan

/-- `x ** n` for a natural exponent (`alpha ** 2`, `alpha ** 3`):
`(-inf) ** n` is `±inf` by the parity of `n`; `x ** 0 = 1.0` even for `nan`. -/
noncomputable def npPowNat : NpFloat → ℕ → NpFloat
  | .fin x, n => .fin (x ^ n)
  | .pinf, n => if n = 0 then .fin 1 else .pinf
  | .ninf, n => if n = 0 then .fin 1 else if n % 2 = 0 then .pinf else .ninf
  | .nan, n => if n = 0 then .fin 1 else .nan

/-- `x ** e` for the non-integer real exponent the source uses
(`pw ** 0.1984`): `0 ** e = 0` for `e > 0`, a negative base gives `nan`. -/
noncomputable def npRpow : NpFloat → ℝ → NpFloat
  | .fin x, e => if 0 ≤ x then .fin (x ^ e) else .nan
  | .pinf, e => if 0 < e then .pinf else if e = 0 then .fin 1 else .fin 0
  | .ninf, _ => .nan
  | .nan, e => if e = 0 then .fin 1 else .nan

/-- IEEE `<` on `NpFloat`: every comparison involving `nan` is `False`. -/
noncomputable def npLt : NpFloat → NpFloat → Bool
  | .fin x, .fin y => decide (x < y)
  | .fin _, .pinf => true
  | .fin _, .ninf => false
  | .pinf, .fin _ => false
  | .ninf, .fin _ => true
  | .ninf, .pinf => true
  | .pinf, .ninf => false
  | .pinf, .pinf => false
  | .ninf, .ninf => false
  | _, _ => false

/-- IEEE `≤` on `NpFloat`: every comparison involving `nan` is `False`. -/
noncomputable def npLe : NpFloat → NpFloat → Bool
  | .fin x, .fin y => decide (x ≤ y)
  | .fin _, .pinf => true
  | .fin _, .ninf => false
  | .pinf, .fin _ => false
  | .ninf, .fin _ => true
  | .ninf, .pinf => true
  | .pinf, .ninf => false
  | .pinf, .pinf => true
  | .ninf, .ninf => true
  | _, _ => false

/-- `calculate_saturation_pressure` over `NpFloat`. -/
noncomputable def npSaturationPressure (t : NpFloat) : NpFloat :=
  npMul (.fin 0.611) (npExp (npDiv (npMul (.fin 17.27) t) (npAdd (.fin 237.7) t)))

/-- `calculate_partial_pressure` over `NpFloat`. -/
noncomputable def npPartialPressure (rh p : NpFloat) : NpFloat :=
  npMul (npDiv rh (.fin 100)) p

/-- `calculate_dew_point` over `NpFloat`, with Python's left-associated
evaluation order of the polynomial sums and `elif dpt < 0` compiled through
`npLt` (so a `nan` principal value skips the fallback polynomial). -/
noncomputable def npDewPoint (pw : NpFloat) : NpFloat :=
  let alpha := npLog pw
  let dpt :=
    npAdd (npAdd (npAdd (npAdd (.fin 6.54) (npMul (.fin 14.526) alpha))
        (npMul (.fin 0.7389) (npPowNat alpha 2)))
      (npMul (.fin 0.09486) (npPowNat alpha 3)))
      (npMul (.fin 0.4569) (npRpow pw 0.1984))
  if npLt dpt (.fin 0) then
    npAdd (npAdd (.fin 6.09) (npMul (.fin 12.608) alpha))
      (npMul (.fin 0.4959) (npPowNat alpha 2))
  else dpt

/-- One hour of `DewPointMorpher.morph_variable` over `NpFloat`: the ASHRAE
chain and the clamp `if dpt > future_temp[hour]: dpt = future_temp[hour]` —
which a `nan` dew point passes unchanged, the comparison being `False`. -/
noncomputable def npDewHour (t rh : NpFloat) : NpFloat :=
  let dpt := npDewPoint (npPartialPressure rh (npSaturationPressure t))
  if npLt t dpt then t else dpt

/-- `TemperatureMorpher.morph_variable`'s scaling-factor division over
`NpFloat`: `alpha = (delta_tmax[month] - delta_tmin[month]) / (dbt0_max -
dbt0_min)`, with `dbt0_max`/`dbt0_min` the `numpy.float64` pandas
reductions. -/
noncomputable def npAlphaTemp (dmaxm dminm dbt0max dbt0min : NpFloat) : NpFloat :=
  npDiv (npSub dmaxm dminm) (npSub dbt0max dbt0min)

/-- One hour of `TemperatureMorpher.morph_variable` over `NpFloat`:
`morphed_temp = dbt0 + delta_t + alpha * (dbt0 - dbt0_mean)`. -/
noncomputable def npMorphTempHour (dbt0 deltaT alpha dbt0Mean : NpFloat) : NpFloat :=
  npAdd (npAdd dbt0 deltaT) (npMul alpha (npSub dbt0 dbt0Mean))

/-!
## Pipeline manager and EPW writer (`utils/epw_morphing_manager.py`)

`EPWMorphingManager.create_morphed_epw` iterates the registered morphers,
keeping two Python dicts: `morphed_data` (EPW column → morphed values) and
`stored_results` (variable name → morphed values).  Dicts are modelled as
insertion-ordered association lists with in-place update.  Each registered
morpher is modelled by the outcome of its `morph_variable` call: an ordinary
morpher carries its result directly (`none` covering a failed base-data read,
missing required climate files and a `None` morph result alike), while the
`DewPointMorpher` — special-cased by the manager through `isinstance` —
carries the function applied to the cached `'TEMP'` and `'RH'` series.
-/

/-- Python dict update `d[k] = v` for an insertion-ordered association list. -/
def setAssoc {κ α : Type} [BEq κ] (l : List (κ × α)) (k : κ) (v : α) :
    List (κ × α) :=
  if l.any (fun p => p.1 == k) then
    l.map (fun p => if p.1 == k then (k, v) else p)
  else l ++ [(k, v)]

/-- Python dict lookup (first, i.e. unique, matching key). -/
def lookupAssoc {κ α : Type} [BEq κ] (l : List (κ × α)) (k : κ) : Option α :=
  (l.find? (fun p => p.1 == k)).map Prod.snd

/-- A registered morpher, as seen by the pipeline loop. -/
inductive PipeMorpher where
  /-- An ordinary morpher: `variable_name`, `epw_column`, and the outcome of
  its `morph_variable` call. -/
  | plain (name : String) (col : ℕ) (result : Option (List ℚ))
  /-- The dew-point morpher: `epw_column` and its `morph_variable` as a
  function of the cached morphed `TEMP` and `RH` series. -/
  | dew (col : ℕ) (f : List ℚ → List ℚ → Option (List ℚ))

/-- The loop state of `create_morphed_epw`: `morphed_data` and
`stored_results`. -/
structure PipeState where
  morphedData : List (ℕ × List ℚ)
  storedResults : List (String × List ℚ)

/-- One iteration of the morpher loop of `create_morphed_epw`: the dew-point
variant is invoked only when both `'TEMP'` and `'RH'` are in
`stored_results` (otherwise `continue`), and a truthy result is stored into
both dicts (the dew-point morpher's `variable_name` is `'DPT'`). -/
def stepMorpher (s : PipeState) : PipeMorpher → PipeState
  | .plain n c r =>
    if truthy r then
      ⟨setAssoc s.morphedData c (r.getD []), setAssoc s.storedResults n (r.getD [])⟩
    else s
  | .dew c f =>
    match lookupAssoc s.storedResults "TEMP", lookupAssoc s.storedResults "RH" with
    | some t, some r =>
      if truthy (f t r) then
        ⟨setAssoc s.morphedData c ((f t r).getD []),
         setAssoc s.storedResults "DPT" ((f t r).getD [])⟩
      else s
    | _, _ => s

/-- The whole morpher loop. -/
def runPipe (ms : List PipeMorpher) : PipeState :=
  ms.foldl stepMorpher ⟨[], []⟩

/-- Whether processing morpher `m` in state `s` morphs successfully
(stores a result). -/
def morphSuccess (s : PipeState) : PipeMorpher → Bool
  | .plain _ _ r => truthy r
  | .dew _ f =>
    match lookupAssoc s.storedResults "TEMP", lookupAssoc s.storedResults "RH" with
    | some t, some r => truthy (f t r)
    | _, _ => false

/-- `f"{values[hour]:.1f}"`, modelled exactly on the rational value: the
tenths digit is obtained by round-half-to-even (IEEE default, which CPython's
fixed-point formatting follows), on the exact value; the sign of a negative
value rounding to zero is not tracked (CPython prints `-0.0` there). -/
def format1 (q : ℚ) : String :=
  let n : ℤ := 10 * q.num
  let d : ℤ := (q.den : ℤ)
  let f : ℤ := Int.fdiv n d
  let r : ℤ := n - f * d
  let t : ℤ :=
    if 2 * r < d then f
    else if d < 2 * r then f + 1
    else if f % 2 = 0 then f else f + 1
  if t < 0 then "-" ++ toString ((-t).toNat / 10) ++ "." ++ toString ((-t).toNat % 10)
  else toString (t.toNat / 10) ++ "." ++ toString (t.toNat % 10)

/-- Python's `split(',')` on a character list (always at least one field). -/
def splitComma : List Char → List (List Char)
  | [] => [[]]
  | c :: cs =>
    if c = ',' then [] :: splitComma cs
    else
      match splitComma cs with
      | f :: rest => (c :: f) :: rest
      | [] => [[c]]

/-- Python's `','.join(...)` on character-list fields. -/
def joinComma : List (List Char) → List Char
  | [] => []
  | [f] => f
  | f :: fs => f ++ ',' :: joinComma fs

/-- The comma-separated fields of a data row: `line.strip().split(',')`. -/
def rowFields (line : String) : List (List Char) :=
  splitComma (stripChars line.toList)

/-- One `elements[column] = f"{values[hour]:.1f}"` assignment of the writer
loop (an out-of-range column or hour raises `IndexError`, modelled as `none`,
which aborts the whole write). -/
def mergeStep (hour : ℕ) (acc : Option (List (List Char))) (p : ℕ × List ℚ) :
    Option (List (List Char)) :=
  match acc with
  | none => none
  | some es =>
    if p.1 < es.length then
      match p.2.get? hour with
      | some v => some (es.set p.1 (format1 v).toList)
      | none => none
    else none

/-- One data row of the writer loop:
`elements = line.strip().split(',')`, then one `mergeStep` per entry of
`morphed_data`, then `','.join(elements)`. -/
def mergeRow (assigns : List (ℕ × List ℚ)) (hour : ℕ) (line : String) :
    Option String :=
  (assigns.foldl (mergeStep hour) (some (rowFields line))).map
    (fun es => String.mk (joinComma es))

/-- The writer loop over all data rows (`for hour, line in enumerate(data_lines)`). -/
def mergeRows (assigns : List (ℕ × List ℚ)) : ℕ → List String → Option (List String)
  | _, [] => some []
  | h, l :: ls =>
    match mergeRow assigns h l with
    | none => none
    | some l' => (mergeRows assigns (h + 1) ls).map (l' :: ·)

/-- `create_morphed_epw` on the baseline file's lines: 8 header lines are
kept verbatim, the morpher loop is run, `None` is returned when no variable
was successfully morphed (`if not morphed_data`), and otherwise the data
lines are rewritten (any `IndexError` in the rewrite is caught by the
function-level handler, returning `None`). -/
def createMorphedEpw (fileLines : List String) (ms : List PipeMorpher) :
    Option (List String) :=
  if fileLines.length < 8 then none
  else
    let s := runPipe ms
    if s.morphedData.isEmpty then none
    else (mergeRows s.morphedData 0 (fileLines.drop 8)).map (fileLines.take 8 ++ ·)

theorem monthlyMapAux_length (f : ℕ → ℚ → ℚ) (xs : List ℚ) (s : ℕ × ℕ) :
    (monthlyMapAux f xs s).length = xs.length := by
  induction xs generalizing s with
  | nil => rfl
  | cons x xs ih => simp [monthlyMapAux, ih]

theorem monthlyMapAux_get? (f : ℕ → ℚ → ℚ) (xs : List ℚ) (s : ℕ × ℕ) (i : ℕ)
    (hi : i < xs.length) :
    (monthlyMapAux f xs s).get? i =
      some (f (monthStep (monthAdvance^[i] s)).1 (xs.getD i 0)) := by
  induction xs generalizing s i with
  | nil => simp at hi
  | cons x xs ih =>
    cases i with
    | zero => simp [monthlyMapAux]
    | succ i =>
      have hi' : i < xs.length := by simpa using hi
      simp only [monthlyMapAux, List.get?_cons_succ, List.getD_cons_succ,
        Function.iterate_succ_apply]
      exact ih (monthAdvance s) i hi'

theorem hoursPerMonth_pos : ∀ m, m < 12 → 0 < hoursPerMonth.getD m 0 := by
  decide

theorem monthStart_pos : ∀ m, 0 < m → 0 < monthStart m := by
  intro m hm
  induction m with
  | zero => exact absurd hm (by simp)
  | succ k ih =>
    cases Nat.eq_zero_or_pos k with
    | inl h0 => subst h0; simp [monthStart, hoursPerMonth]
    | inr hk => exact Nat.lt_of_lt_of_le (ih hk) (by simp [monthStart])

/-- The hour-loop state, iterated from the initial `(1, 0)`, lands on
1-based month `m + 1` exactly on the hours of calendar month `m` of the
fixed table. -/
theorem monthStep_iterate (i m : ℕ) (hm : m < 12)
    (h1 : monthStart m ≤ i) (h2 : i < monthStart (m + 1)) :
    monthStep (monthAdvance^[i] (1, 0)) = (m + 1, i - monthStart m) := by
  induction i generalizing m with
  | zero =>
    have hm0 : m = 0 := by
      by_contra h
      have := monthStart_pos m (Nat.pos_of_ne_zero h)
      omega
    subst hm0
    simp [monthStep, monthStart, hoursPerMonth]
  | succ i ih =>
    have hsucc : monthStart (m + 1) = monthStart m + hoursPerMonth.getD m 0 := rfl
    rw [Function.iterate_succ_apply']
    rcases Nat.lt_or_ge i (monthStart m) with hlt | hge
    · -- `i + 1` is the first hour of month `m`; hour `i` was in month `m - 1`
      have hmeq : i + 1 = monthStart m := by omega
      have hm0 : m ≠ 0 := by
        intro h0; subst h0; simp [monthStart] at hmeq
      obtain ⟨m', rfl⟩ : ∃ k, m = k + 1 := ⟨m - 1, by omega⟩
      have hm' : m' < 12 := Nat.lt_of_succ_lt hm
      have hpos' : 0 < hoursPerMonth.getD m' 0 := hoursPerMonth_pos m' hm'
      have hsucc' : monthStart (m' + 1) = monthStart m' + hoursPerMonth.getD m' 0 := rfl
      have hb1 : monthStart m' ≤ i := by omega
      have hb2 : i < monthStart (m' + 1) := by omega
      have hstep := ih m' hm' hb1 hb2
      have hcount : i - monthStart m' = hoursPerMonth.getD m' 0 - 1 := by omega
      rw [monthAdvance, hstep]
      simp only [hcount]
      have : hoursPerMonth.getD m' 0 - 1 + 1 = hoursPerMonth.getD m' 0 := by omega
      rw [monthStep]
      simp only [this, Nat.add_sub_cancel]
      rw [if_pos (Nat.le_refl _)]
      have hwrap : ¬ 12 < m' + 1 + 1 := by omega
      rw [if_neg hwrap]
      have : i + 1 - monthStart (m' + 1) = 0 := by omega
      rw [this]
    · -- `i + 1` stays in month `m`
      have hb2 : i < monthStart (m + 1) := by omega
      have hstep := ih m hm hge hb2
      rw [monthAdvance, hstep]
      have hlt2 : i - monthStart m + 1 < hoursPerMonth.getD m 0 := by omega
      rw [monthStep]
      simp only []
      rw [if_neg (by simpa using Nat.not_le_of_lt hlt2)]
      have : i + 1 - monthStart m = i - monthStart m + 1 := by omega
      rw [this]

/-- Per-hour characterization of the shared hour loop: on hour `i` of calendar
month `m`, the loop applies `f (m + 1)`. -/
theorem monthlyMap_get? (f : ℕ → ℚ → ℚ) (base : List ℚ) (i m : ℕ) (hm : m < 12)
    (h1 : monthStart m ≤ i) (h2 : i < monthStart (m + 1)) (hi : i < base.length) :
    (monthlyMap f base).get? i = some (f (m + 1) (base.getD i 0)) := by
  rw [monthlyMap, monthlyMapAux_get? f base (1, 0) i hi,
    monthStep_iterate i m hm h1 h2]

/-- Every value produced by the shared hour loop is of the form
`f current_month x`. -/
theorem monthlyMapAux_shape (f : ℕ → ℚ → ℚ) (xs : List ℚ) (s : ℕ × ℕ) :
    ∀ v ∈ monthlyMapAux f xs s, ∃ cm x, v = f cm x := by
  induction xs generalizing s with
  | nil => simp [monthlyMapAux]
  | cons x xs ih =>
    intro v hv
    rw [monthlyMapAux] at hv
    rcases List.mem_cons.mp hv with h | h
    · exact ⟨_, x, h⟩
    · exact ih (monthAdvance s) v h

/-!
## C1, C5, C8: the per-hour morphing formulas
-/

/-- C1: in shift-and-scale mode the temperature morpher maps hour `i` of
calendar month `m` (of the fixed hours-per-month table) to
`base + Δmean_m + α_m · (base − mean_m)`, where `mean_m` is the baseline's
month-`m` mean and `α_m = (ΔTmax_m − ΔTmin_m) / (max_m − min_m)`. -/
theorem tempMorph_shift_and_scale (base dtemp dmax dmin : List ℚ)
    (h12t : dtemp.length = 12) (h12x : dmax.length = 12) (h12n : dmin.length = 12)
    (m i : ℕ) (hm : m < 12) (h1 : monthStart m ≤ i) (h2 : i < monthStart (m + 1))
    (hi : i < base.length) (hne : monthMax base m ≠ monthMin base m) :
    (morphTemp base dtemp dmax dmin).get? i =
      some (base.getD i 0 + dtemp.getD m 0 +
        (dmax.getD m 0 - dmin.getD m 0) / (monthMax base m - monthMin base m) *
          (base.getD i 0 - monthMean base m)) := by
  rw [morphTemp, monthlyMap_get? _ base i m hm h1 h2 hi]
  have hden : monthMax base m - monthMin base m ≠ 0 := sub_ne_zero.mpr hne
  simp [alphaTemp, hden]

/-- C1 witness: a January baseline `[9.5, 10.5]` (monthly mean 10, range 1)
with ΔTEMP = 2, ΔTmax = 3, ΔTmin = 2 (so α = 1), at hour 0. -/
theorem tempMorph_shift_and_scale_witness :
    (morphTemp [19/2, 21/2] (List.replicate 12 2) (List.replicate 12 3)
        (List.replicate 12 2)).get? 0 =
      some (([19/2, 21/2] : List ℚ).getD 0 0 + (List.replicate 12 (2:ℚ)).getD 0 0 +
        ((List.replicate 12 (3:ℚ)).getD 0 0 - (List.replicate 12 (2:ℚ)).getD 0 0) /
          (monthMax [19/2, 21/2] 0 - monthMin [19/2, 21/2] 0) *
          (([19/2, 21/2] : List ℚ).getD 0 0 - monthMean [19/2, 21/2] 0)) := by
  have hs : monthSlice ([19/2, 21/2] : List ℚ) 0 = [19/2, 21/2] := by
    rw [monthSlice]
    simp only [monthStart, List.drop_zero]
    exact List.take_of_length_le (by decide)
  exact tempMorph_shift_and_scale [19/2, 21/2] _ _ _ (by simp) (by simp) (by simp)
    0 0 (by norm_num) (by decide) (by decide) (by decide)
    (by rw [monthMax, monthMin, hs, listMax, listMin]; norm_num)

/-- C5: the relative-humidity morpher maps hour `i` of calendar month `m` to
`clamp(base + ΔRH_m, 0, 100)`, and every output value lies in `[0, 100]`. -/
theorem rhMorph_clamped (base drh : List ℚ) (h12 : drh.length = 12)
    (m i : ℕ) (hm : m < 12) (h1 : monthStart m ≤ i) (h2 : i < monthStart (m + 1))
    (hi : i < base.length) :
    (morphRH base drh).get? i =
      some (max 0 (min 100 (base.getD i 0 + drh.getD m 0))) ∧
    ∀ j v, (morphRH base drh).get? j = some v → 0 ≤ v ∧ v ≤ 100 := by
  constructor
  · rw [morphRH, monthlyMap_get? _ base i m hm h1 h2 hi]
    simp
  · intro j v hv
    obtain ⟨cm, x, rfl⟩ := monthlyMapAux_shape _ _ _ v (List.get?_mem hv)
    exact ⟨le_max_left _ _, max_le (by norm_num) (min_le_left _ _)⟩

/-- C5 witness: baseline `[150, 50]` with ΔRH = 5 at hour 0 (January). -/
theorem rhMorph_clamped_witness :
    (morphRH [150, 50] (List.replicate 12 5)).get? 0 =
      some (max 0 (min 100 (([150, 50] : List ℚ).getD 0 0 +
        (List.replicate 12 (5:ℚ)).getD 0 0))) ∧
    ∀ j v, (morphRH [150, 50] (List.replicate 12 5)).get? j = some v →
      0 ≤ v ∧ v ≤ 100 :=
  rhMorph_clamped [150, 50] (List.replicate 12 5) (by simp)
    0 0 (by decide) (by decide) (by decide) (by decide)

/-- C8 (code bug): the claimed `except ZeroDivisionError` default of
`α = 1.0` is dead code. In a month whose baseline maximum equals its baseline
minimum (here a constant `10 °C` month, with `ΔTmax = 3`, `ΔTmin = 2`,
`ΔTEMP = 2`), the `numpy.float64` division `(3 - 2) / (10 - 10)` evaluates to
`+inf` — with a `RuntimeWarning`, not a `ZeroDivisionError`, so the `except`
branch never runs and `α ≠ 1.0` — and the hour formula
`dbt0 + delta_t + alpha * (dbt0 - dbt0_mean)` then evaluates to
`10 + 2 + inf * (10 - 10) = 12 + inf * 0 = nan` for every hour of the month:
the month is morphed to `nan`, not with `α = 1`. -/
theorem tempMorph_alpha_inf_at_constant_month :
    npAlphaTemp (.fin 3) (.fin 2) (.fin 10) (.fin 10) = NpFloat.pinf ∧
    npAlphaTemp (.fin 3) (.fin 2) (.fin 10) (.fin 10) ≠ NpFloat.fin 1 ∧
    npMorphTempHour (.fin 10) (.fin 2)
      (npAlphaTemp (.fin 3) (.fin 2) (.fin 10) (.fin 10)) (.fin 10) =
      NpFloat.nan := by
  have hsub1 : npSub (NpFloat.fin 3) (NpFloat.fin 2) = NpFloat.fin (3 - 2) := rfl
  have hsub2 : npSub (NpFloat.fin 10) (NpFloat.fin 10) = NpFloat.fin (10 - 10) := rfl
  have halpha : npAlphaTemp (.fin 3) (.fin 2) (.fin 10) (.fin 10) = NpFloat.pinf := by
    rw [npAlphaTemp, hsub1, hsub2]
    simp only [npDiv]
    rw [if_pos (by norm_num), if_pos (by norm_num)]
  refine ⟨halpha, ?_, ?_⟩
  · rw [halpha]
    intro h
    exact NpFloat.noConfusion h
  · rw [npMorphTempHour, halpha, hsub2]
    have hmul : npMul NpFloat.pinf (NpFloat.fin (10 - 10)) = NpFloat.nan := by
      simp only [npMul]
      rw [if_neg (by norm_num), if_neg (by norm_num)]
    rw [hmul]
    rfl

/-!
## C6: behaviour under an all-zero change signal
-/

theorem replicate_drop {α : Type} (a : α) (k n : ℕ) :
    (List.replicate n a).drop k = List.replicate (n - k) a := by
  induction k generalizing n with
  | zero => simp
  | succ k ih =>
    cases n with
    | zero => simp
    | succ n => simp [List.replicate_succ, Nat.succ_sub_succ, ih n]

theorem replicate_take {α : Type} (a : α) (k n : ℕ) :
    (List.replicate n a).take k = List.replicate (min k n) a := by
  induction k generalizing n with
  | zero => simp
  | succ k ih =>
    cases n with
    | zero => simp
    | succ n => simp [List.replicate_succ, ih n, Nat.succ_min_succ]

theorem getD_replicate_of_lt {α : Type} (a d : α) (n m : ℕ) (h : m < n) :
    (List.replicate n a).getD m d = a := by
  rw [List.getD_eq_getElem?_getD, List.getElem?_replicate, if_pos h]
  rfl

theorem meanQ_replicate_one (n : ℕ) (hn : 0 < n) :
    meanQ (List.replicate n 1) = 1 := by
  rw [meanQ]
  simp only [List.sum_replicate, nsmul_eq_mul, mul_one, List.length_replicate]
  exact div_self (Nat.cast_ne_zero.mpr hn.ne')

theorem monthSlice_replicate8760 (m : ℕ) (hm : m < 12) :
    monthSlice (List.replicate 8760 1) m =
      List.replicate (hoursPerMonth.getD m 0) 1 := by
  rw [monthSlice, replicate_drop, replicate_take]
  congr 1
  interval_cases m <;> decide

theorem monthMean_replicate8760 (m : ℕ) (hm : m < 12) :
    monthMean (List.replicate 8760 1) m = 1 := by
  rw [monthMean, monthSlice_replicate8760 m hm]
  exact meanQ_replicate_one _ (hoursPerMonth_pos m hm)

theorem baseMonthlyMeans_replicate8760 :
    baseMonthlyMeans (List.replicate 8760 1) = List.replicate 12 1 := by
  rw [baseMonthlyMeans]
  refine List.eq_replicate_iff.2 ⟨by rw [List.length_map, List.length_range], ?_⟩
  intro b hb
  obtain ⟨m, hm, rfl⟩ := List.mem_map.1 hb
  exact monthMean_replicate8760 m (List.mem_range.1 hm)

/-- On a constant all-ones full-year baseline with constant all-ones historic
monthly raster values, every wind scaling factor is 1. -/
theorem alphaWind_replicate8760 (m : ℕ) (hm : m < 12) :
    alphaWind (List.replicate 8760 1) (List.replicate 12 1) m = 1 := by
  have hb : baseNorm (List.replicate 8760 1) m = 1 := by
    rw [baseNorm, baseMonthlyMeans_replicate8760, meanQ_replicate_one 12 (by norm_num),
      getD_replicate_of_lt _ _ _ _ hm]
    norm_num
  have hh : histNorm (List.replicate 12 1) m = 1 := by
    rw [histNorm, meanQ_replicate_one 12 (by norm_num), getD_replicate_of_lt _ _ _ _ hm]
    norm_num
  simp only [alphaWind, hb, hh]
  norm_num

/-- C6 counterexample: with every change signal zero, (a) the wind morpher
(all α_m = 1 on an all-ones baseline/historic pair) does not return the
baseline — hour 0 becomes `0.514444` instead of `1` (the knots → m/s
conversion), and (b) the relative-humidity morpher (all ΔRH = 0) does not
return a baseline value of 150 — it is clamped to 100. -/
theorem zeroSignal_identity_counterexample :
    ((∀ m, m < 12 → alphaWind (List.replicate 8760 1) (List.replicate 12 1) m = 1) ∧
      (morphWind (List.replicate 8760 1) (List.replicate 12 1)).get? 0 ≠
        some ((List.replicate 8760 (1:ℚ)).getD 0 0)) ∧
    ((∀ m, m < 12 → (List.replicate 12 (0:ℚ)).getD m 0 = 0) ∧
      (morphRH [150] (List.replicate 12 0)).get? 0 ≠
        some (([150] : List ℚ).getD 0 0)) := by
  refine ⟨⟨alphaWind_replicate8760, ?_⟩, fun m hm => getD_replicate_of_lt _ _ _ _ hm, ?_⟩
  · rw [morphWind, monthlyMap_get? _ _ 0 0 (by decide) (by decide) (by decide)
      (by rw [List.length_replicate]; norm_num)]
    simp only [Nat.add_sub_cancel, alphaWind_replicate8760 0 (by decide),
      getD_replicate_of_lt _ _ _ _ (by decide : (0:ℕ) < 8760), Option.some.injEq]
    norm_num
  · rw [morphRH, monthlyMap_get? _ _ 0 0 (by decide) (by decide) (by decide) (by decide)]
    simp only [Nat.add_sub_cancel, getD_replicate_of_lt _ _ _ _ ((by decide : (0:ℕ) < 12)),
      List.getD_cons_zero, Option.some.injEq]
    norm_num

/-- C6 (amended): with an all-zero change signal, the relative-humidity
morpher returns the baseline unchanged at every hour whose baseline value
lies within `[0, 100]` (values outside are clamped), and the wind morpher
(all scaling factors 1) returns the baseline multiplied by the fixed
knots → m/s constant `0.514444` — the identity holds in the source unit,
not in the emitted series. -/
theorem zeroSignal_behavior :
    (∀ (base drh : List ℚ), drh.length = 12 →
      (∀ m, m < 12 → drh.getD m 0 = 0) →
      ∀ m i, m < 12 → monthStart m ≤ i → i < monthStart (m + 1) → i < base.length →
      0 ≤ base.getD i 0 → base.getD i 0 ≤ 100 →
      (morphRH base drh).get? i = some (base.getD i 0)) ∧
    (∀ (base hist : List ℚ),
      (∀ m, m < 12 → alphaWind base hist m = 1) →
      ∀ m i, m < 12 → monthStart m ≤ i → i < monthStart (m + 1) → i < base.length →
      (morphWind base hist).get? i = some (base.getD i 0 * 0.514444)) := by
  constructor
  · intro base drh h12 hz m i hm h1 h2 hi h0 h100
    rw [morphRH, monthlyMap_get? _ base i m hm h1 h2 hi]
    simp only [Nat.add_sub_cancel, hz m hm, add_zero]
    rw [min_eq_right h100, max_eq_right h0]
  · intro base hist ha m i hm h1 h2 hi
    rw [morphWind, monthlyMap_get? _ base i m hm h1 h2 hi]
    simp only [Nat.add_sub_cancel, ha m hm, one_mul]

/-- C6 witness: the amended behaviour at hour 0 for an in-range humidity
baseline `[50, 60]` with zero deltas, and for the all-ones wind pair. -/
theorem zeroSignal_behavior_witness :
    (morphRH [50, 60] (List.replicate 12 0)).get? 0 =
      some (([50, 60] : List ℚ).getD 0 0) ∧
    (morphWind (List.replicate 8760 1) (List.replicate 12 1)).get? 0 =
      some ((List.replicate 8760 (1:ℚ)).getD 0 0 * 0.514444) := by
  constructor
  · exact zeroSignal_behavior.1 [50, 60] (List.replicate 12 0) (by simp)
      (fun m hm => getD_replicate_of_lt _ _ _ _ hm) 0 0 (by decide) (by decide)
      (by decide) (by decide) (by norm_num [List.getD_cons_zero])
      (by norm_num [List.getD_cons_zero])
  · exact zeroSignal_behavior.2 (List.replicate 8760 1) (List.replicate 12 1)
      alphaWind_replicate8760 0 0 (by decide) (by decide) (by decide)
      (by rw [List.length_replicate]; norm_num)

/-!
## C10: validation of variable types without a configured range
-/

/-- C10: `validate_value` returns `True` for every variable type without an
entry in the `ranges` table (any type other than `TEMP`, `WIND`, `RH`,
`PREC`), for every value and city; consequently the solar radiation
morpher's out-of-range warning condition is false for every input. -/
theorem validateValue_no_range_entry :
    (∀ (v : ℚ) (ty city : String),
      ¬(ty = "TEMP" ∨ ty = "WIND" ∨ ty = "RH" ∨ ty = "PREC") →
      validateValue v ty city = true) ∧
    (∀ (v : ℚ) (city : String), solarOutOfRangeWarning v city = false) := by
  have h1 : ∀ (v : ℚ) (ty city : String),
      ¬(ty = "TEMP" ∨ ty = "WIND" ∨ ty = "RH" ∨ ty = "PREC") →
      validateValue v ty city = true := by
    intro v ty city h
    push_neg at h
    obtain ⟨hT, hW, hR, hP⟩ := h
    rw [validateValue, if_neg hT, if_neg hW, if_neg hR, if_neg hP]
  refine ⟨h1, fun v city => ?_⟩
  rw [solarOutOfRangeWarning, h1 v "SOLRAD" city (by decide)]
  rfl

/-- C10 witness: the solar radiation variable type `'SOLRAD'` at an extreme
value for a configured city. -/
theorem validateValue_no_range_entry_witness :
    validateValue 123456 "SOLRAD" "London" = true :=
  validateValue_no_range_entry.1 123456 "SOLRAD" "London" (by decide)

/-!
## C2, C7: the dew-point morpher's clamp and the per-hour fallback
-/

theorem npMul_fin_pinf (a : ℝ) (h : 0 < a) :
    npMul (.fin a) NpFloat.pinf = NpFloat.pinf := by
  simp only [npMul]
  rw [if_pos h]

theorem npMul_fin_ninf (a : ℝ) (h : 0 < a) :
    npMul (.fin a) NpFloat.ninf = NpFloat.ninf := by
  simp only [npMul]
  rw [if_pos h]

/-- Hour `i` of a successful dew-point morph: the per-hour match between the
ASHRAE chain (when both morphed inputs have an hour `i`) and the baseline
fallback. -/
theorem morphDewPoint_get? (base temp rh : List ℝ) (hne : base ≠ []) (i : ℕ)
    (hi : i < base.length) :
    ((morphDewPoint base temp rh).getD []).get? i =
      some (match temp.get? i, rh.get? i with
        | some t, some r => dewHour t r
        | _, _ => base.getD i 0) := by
  rw [morphDewPoint]
  have h0 : ¬((List.range base.length).map fun h =>
      match temp.get? h, rh.get? h with
      | some t, some r => dewHour t r
      | _, _ => base.getD h 0).isEmpty = true := by
    simp [List.isEmpty_iff, List.length_pos.mpr hne, Nat.pos_iff_ne_zero.mp
      (List.length_pos.mpr hne)]
  rw [if_neg h0]
  simp only [Option.getD_some]
  rw [List.get?_eq_getElem?, List.getElem?_map, List.getElem?_range hi]
  rfl

/-- C2 (code bug): the claimed invariant "the returned dew point never exceeds
the paired morphed dry-bulb temperature" fails in the program at any hour
whose morphed relative humidity is `0 %` (the RH morpher's own clamp floor).
At such an hour (here morphed dry-bulb `10 °C`, morphed RH `0`) the partial
pressure is `0`, `np.log(0.0)` is `-inf` with a `RuntimeWarning` (no
exception, so the per-hour `except` does not fire), the ASHRAE polynomial
evaluates left-to-right to `nan` (`6.54 + 14.526·(-inf)` is `-inf`, adding
`0.7389·(+inf)` gives `nan`), the `elif dpt < 0` fallback is skipped because
`nan < 0` is `False`, the clamp `if dpt > future_temp[hour]` is skipped
because `nan > 10` is `False`, and the appended value `nan` is not `≤` the
dry-bulb temperature. -/
theorem dewPoint_nan_at_zero_rh :
    npDewHour (.fin 10) (.fin 0) = NpFloat.nan ∧
    npLe (npDewHour (.fin 10) (.fin 0)) (.fin 10) = false := by
  have hsat : npSaturationPressure (.fin 10) =
      NpFloat.fin (0.611 * Real.exp (17.27 * 10 / (237.7 + 10))) := by
    have h1 : npMul (.fin 17.27) (.fin 10) = NpFloat.fin (17.27 * 10) := rfl
    have h2 : npAdd (.fin 237.7) (.fin 10) = NpFloat.fin (237.7 + 10) := rfl
    have h3 : npDiv (NpFloat.fin (17.27 * 10)) (NpFloat.fin (237.7 + 10)) =
        NpFloat.fin (17.27 * 10 / (237.7 + 10)) := by
      simp only [npDiv]
      rw [if_neg (by norm_num)]
    rw [npSaturationPressure, h1, h2, h3]
    rfl
  have hpp : npPartialPressure (.fin 0) (npSaturationPressure (.fin 10)) =
      NpFloat.fin 0 := by
    rw [hsat, npPartialPressure]
    have h4 : npDiv (NpFloat.fin 0) (NpFloat.fin 100) = NpFloat.fin (0 / 100) := by
      simp only [npDiv]
      rw [if_neg (by norm_num)]
    rw [h4]
    have h5 : npMul (NpFloat.fin ((0:ℝ) / 100))
        (NpFloat.fin (0.611 * Real.exp (17.27 * 10 / (237.7 + 10)))) =
        NpFloat.fin ((0 / 100) * (0.611 * Real.exp (17.27 * 10 / (237.7 + 10)))) := rfl
    rw [h5]
    norm_num
  have hlog : npLog (NpFloat.fin 0) = NpFloat.ninf := by
    simp [npLog]
  have hdp : npDewPoint (NpFloat.fin 0) = NpFloat.nan := by
    rw [npDewPoint]
    simp only [hlog]
    have hb1 : npMul (.fin 14.526) NpFloat.ninf = NpFloat.ninf :=
      npMul_fin_ninf 14.526 (by norm_num)
    have hb2 : npAdd (.fin 6.54) NpFloat.ninf = NpFloat.ninf := rfl
    have hb3 : npPowNat NpFloat.ninf 2 = NpFloat.pinf := by
      simp only [npPowNat]
      norm_num
    have hb4 : npMul (.fin 0.7389) NpFloat.pinf = NpFloat.pinf :=
      npMul_fin_pinf 0.7389 (by norm_num)
    have hb5 : npAdd NpFloat.ninf NpFloat.pinf = NpFloat.nan := rfl
    have hb6 : npPowNat NpFloat.ninf 3 = NpFloat.ninf := by
      simp only [npPowNat]
      norm_num
    have hb7 : npMul (.fin 0.09486) NpFloat.ninf = NpFloat.ninf :=
      npMul_fin_ninf 0.09486 (by norm_num)
    have hb8 : npAdd NpFloat.nan NpFloat.ninf = NpFloat.nan := rfl
    have hb9 : npRpow (NpFloat.fin 0) 0.1984 = NpFloat.fin ((0:ℝ) ^ (0.1984:ℝ)) := by
      simp only [npRpow]
      rw [if_pos (by norm_num)]
    have hb10 : npMul (.fin 0.4569) (NpFloat.fin ((0:ℝ) ^ (0.1984:ℝ))) =
        NpFloat.fin (0.4569 * (0:ℝ) ^ (0.1984:ℝ)) := rfl
    have hb11 : npAdd NpFloat.nan (NpFloat.fin (0.4569 * (0:ℝ) ^ (0.1984:ℝ))) =
        NpFloat.nan := rfl
    rw [hb1, hb2, hb3, hb4, hb5, hb6, hb7, hb8, hb9, hb10, hb11]
    rw [if_neg (by simp [npLt])]
  have hdh : npDewHour (.fin 10) (.fin 0) = NpFloat.nan := by
    rw [npDewHour]
    simp only [hpp, hdp]
    rw [if_neg (by simp [npLt])]
  exact ⟨hdh, by rw [hdh]; rfl⟩

/-- `readDifFile` only succeeds with exactly 12 monthly values. -/
theorem readDifFile_some_length (lines : List String) (vs : List ℚ)
    (h : readDifFile lines = some vs) : vs.length = 12 := by
  rw [readDifFile] at h
  split at h
  · cases h
    rw [List.length_take]
    omega
  · cases h

/-- C7: the only reachable per-hour failure in the morpher family — reading a
missing hour of the morphed input series in the dew-point loop — falls back
to the baseline value for that hour and the loop continues; the temperature
morpher's hour loop is total (it always yields a full-length series once its
inputs parsed), and the whole variable fails (`None`) exactly when reading
one of the difference files fails. -/
theorem perHour_exception_policy :
    (∀ (base temp rh : List ℝ), base ≠ [] → ∀ i, i < base.length →
      (temp.get? i = none ∨ rh.get? i = none) →
      ((morphDewPoint base temp rh).getD []).getD i 0 = base.getD i 0) ∧
    (∀ (base : List ℚ) (ftmax ftmin ftemp : List String),
      ((morphVariableTemp base ftmax ftmin ftemp).isSome ↔
        (readDifFile ftmax).isSome ∧ (readDifFile ftmin).isSome ∧
          (readDifFile ftemp).isSome) ∧
      ∀ out, morphVariableTemp base ftmax ftmin ftemp = some out →
        out.length = base.length) := by
  constructor
  · intro base temp rh hne i hi hmiss
    have hmg := morphDewPoint_get? base temp rh hne i hi
    have hred : (match temp.get? i, rh.get? i with
        | some t, some r => dewHour t r
        | _, _ => base.getD i 0) = base.getD i 0 := by
      rcases hmiss with h | h
      · rw [h]
      · rw [h]
        cases temp.get? i <;> rfl
    rw [hred] at hmg
    rw [List.getD_eq_getElem?_getD, ← List.get?_eq_getElem?, hmg]
    rfl
  · intro base ftmax ftmin ftemp
    have htr : ∀ lines, truthy (readDifFile lines) = (readDifFile lines).isSome := by
      intro lines
      rcases h : readDifFile lines with _ | vs
      · rfl
      · have h12 := readDifFile_some_length _ _ h
        cases vs with
        | nil => simp at h12
        | cons a l => rfl
    constructor
    · rw [morphVariableTemp, htr, htr, htr]
      split
      · next hcond =>
        simp only [Bool.and_eq_true] at hcond
        simp [hcond.1.1, hcond.1.2, hcond.2]
      · next hcond =>
        simp only [Option.isSome_none, Bool.false_eq_true, false_iff]
        intro hc
        exact hcond (by simp [hc.1, hc.2.1, hc.2.2])
    · intro out hout
      rw [morphVariableTemp] at hout
      split at hout
      · cases hout
        rw [morphTemp, monthlyMap, monthlyMapAux_length]
      · cases hout

/-- C7 witness: hour 1 of a two-hour baseline with a one-hour morphed
temperature series falls back to the baseline's hour 1; the temperature
morpher on three unreadable (empty) difference files returns `None`. -/
theorem perHour_exception_policy_witness :
    ((morphDewPoint [5, 7] [1] [50, 60]).getD []).getD 1 0 =
      ([5, 7] : List ℝ).getD 1 0 ∧
    ((morphVariableTemp [3] [] [] []).isSome ↔
      (readDifFile []).isSome ∧ (readDifFile []).isSome ∧
        (readDifFile []).isSome) := by
  constructor
  · exact perHour_exception_policy.1 [5, 7] [1] [50, 60] (by simp) 1 (by norm_num)
      (Or.inl rfl)
  · exact (perHour_exception_policy.2 [3] [] [] []).1

/-!
## C4: the difference-table parser yields exactly 12 month values
-/

/-- The parser's integer sentinel test is exactly the source's rational
comparison `float(chunk) < 9999` on the denoted value. -/
theorem toQ_lt_sentinel_iff (p : ℤ × ℕ) : toQ p < 9999 ↔ p.1 < 9999 * 10 ^ p.2 := by
  rw [toQ, div_lt_iff₀ (by positivity)]
  constructor
  · intro h
    exact_mod_cast h
  · intro h
    exact_mod_cast h

/-- C4: the parser yields some list only of exactly 12 month values (taking
the first 12 with a warning when more were collected, and failing with `None`
when fewer than 12 were); a synthetic table of exactly 12 month blocks, each
with the single valid chunk `"   12.34"`, parses to twelve copies of `12.34`,
a 13-block table is truncated to the same 12 values, and an 11-block table
fails. -/
theorem readDifFile_exactly_twelve :
    (∀ (lines : List String) (vs : List ℚ),
      readDifFile lines = some vs → vs.length = 12) ∧
    (∀ lines : List String, 12 ≤ (difCollect lines).length →
      readDifFile lines = some ((difCollect lines).take 12)) ∧
    (∀ lines : List String, (difCollect lines).length < 12 →
      readDifFile lines = none) ∧
    toQ (1234, 2) = 12.34 ∧
    readDifFile ((List.replicate 12 ["Month is X", "   12.34"]).flatten) =
      some (List.replicate 12 (toQ (1234, 2))) ∧
    readDifFile ((List.replicate 13 ["Month is X", "   12.34"]).flatten) =
      some (List.replicate 12 (toQ (1234, 2))) ∧
    readDifFile ((List.replicate 11 ["Month is X", "   12.34"]).flatten) = none := by
  refine ⟨readDifFile_some_length, ?_, ?_, by norm_num [toQ], ?_, ?_, ?_⟩
  · intro lines h
    rw [readDifFile, if_pos h]
  · intro lines h
    rw [readDifFile, if_neg (by omega)]
  · rfl
  · rfl
  · rfl

/-- C4 witness: the truncation case on the 13-block table and the failure
case on the 11-block table, with the block counts decided by evaluation. -/
theorem readDifFile_exactly_twelve_witness :
    readDifFile ((List.replicate 13 ["Month is X", "   12.34"]).flatten) =
      some ((difCollect ((List.replicate 13 ["Month is X", "   12.34"]).flatten)).take 12) ∧
    readDifFile ((List.replicate 11 ["Month is X", "   12.34"]).flatten) = none :=
  ⟨readDifFile_exactly_twelve.2.1 _ (by decide),
   readDifFile_exactly_twelve.2.2.1 _ (by decide)⟩

/-!
## C3, C9: the pipeline loop and the EPW writer
-/

theorem setAssoc_ne_nil {κ α : Type} [BEq κ] (l : List (κ × α)) (k : κ) (v : α) :
    setAssoc l k v ≠ [] := by
  rw [setAssoc]
  split
  · next hany =>
    intro hc
    rw [List.map_eq_nil_iff] at hc
    subst hc
    simp at hany
  · intro hc
    exact absurd hc (by simp)

theorem setAssoc_keys_nodup {κ α : Type} [BEq κ] [LawfulBEq κ]
    (l : List (κ × α)) (k : κ) (v : α)
    (h : (l.map Prod.fst).Nodup) : ((setAssoc l k v).map Prod.fst).Nodup := by
  rw [setAssoc]
  split
  · next hany =>
    have heq : (l.map (fun p => if p.1 == k then (k, v) else p)).map Prod.fst =
        l.map Prod.fst := by
      rw [List.map_map]
      apply List.map_congr_left
      intro p _
      by_cases hb : (p.1 == k) = true
      · simp only [Function.comp_apply, hb, if_true]
        exact (eq_of_beq hb).symm
      · simp [Function.comp, hb]
    rw [heq]
    exact h
  · next hany =>
    rw [List.map_append]
    refine h.append (List.nodup_singleton k) ?_
    intro a ha hb
    have hak : a = k := List.mem_singleton.mp hb
    subst hak
    obtain ⟨p, hp, hpk⟩ := List.mem_map.mp ha
    exact hany (List.any_eq_true.mpr ⟨p, hp, by simp [hpk]⟩)

theorem stepMorpher_no_success {s : PipeState} {m : PipeMorpher}
    (h : morphSuccess s m = false) : stepMorpher s m = s := by
  cases m with
  | plain n c r =>
    simp only [morphSuccess] at h
    simp only [stepMorpher]
    rw [if_neg]
    simp [h]
  | dew c f =>
    simp only [morphSuccess] at h
    simp only [stepMorpher]
    rcases ht : lookupAssoc s.storedResults "TEMP" with _ | t
    · cases lookupAssoc s.storedResults "RH" <;> rfl
    · rcases hr : lookupAssoc s.storedResults "RH" with _ | r
      · rfl
      · rw [ht, hr] at h
        have h' : truthy (f t r) = false := h
        simp [h']

theorem stepMorpher_success_morphedData {s : PipeState} {m : PipeMorpher}
    (h : morphSuccess s m = true) :
    ∃ k v, (stepMorpher s m).morphedData = setAssoc s.morphedData k v := by
  cases m with
  | plain n c r =>
    simp only [morphSuccess] at h
    refine ⟨c, r.getD [], ?_⟩
    simp only [stepMorpher]
    rw [if_pos h]
  | dew c f =>
    simp only [morphSuccess] at h
    rcases ht : lookupAssoc s.storedResults "TEMP" with _ | t <;>
      rcases hr : lookupAssoc s.storedResults "RH" with _ | r <;>
        rw [ht, hr] at h
    · exact absurd (show (false : Bool) = true from h) (by simp)
    · exact absurd (show (false : Bool) = true from h) (by simp)
    · exact absurd (show (false : Bool) = true from h) (by simp)
    · have h' : truthy (f t r) = true := h
      refine ⟨c, (f t r).getD [], ?_⟩
      simp only [stepMorpher]
      rw [ht, hr]
      dsimp only
      rw [if_pos h']

/-- While walking the morpher list, `morphed_data` ends empty exactly when it
started empty and no morpher along the way morphed successfully. -/
theorem foldl_morphedData_nil (ms : List PipeMorpher) :
    ∀ s : PipeState, (List.foldl stepMorpher s ms).morphedData = [] ↔
      s.morphedData = [] ∧ ∀ pre m post, ms = pre ++ m :: post →
        morphSuccess (List.foldl stepMorpher s pre) m = false := by
  induction ms with
  | nil =>
    intro s
    rw [List.foldl_nil]
    constructor
    · intro h
      refine ⟨h, ?_⟩
      intro pre m post hsplit
      exact absurd hsplit (by cases pre <;> simp)
    · rintro ⟨h, -⟩
      exact h
  | cons m0 ms ih =>
    intro s
    rw [List.foldl_cons, ih (stepMorpher s m0)]
    constructor
    · rintro ⟨h1, h2⟩
      have hsucc : morphSuccess s m0 = false := by
        cases hmc : morphSuccess s m0
        · rfl
        · obtain ⟨k, v, hkv⟩ := stepMorpher_success_morphedData hmc
          exact absurd (hkv ▸ h1) (setAssoc_ne_nil _ _ _)
      have hstep : stepMorpher s m0 = s := stepMorpher_no_success hsucc
      rw [hstep] at h1 h2
      refine ⟨h1, ?_⟩
      intro pre m post hsplit
      cases pre with
      | nil =>
        injection hsplit with hea heb
        subst hea
        subst heb
        simpa using hsucc
      | cons p0 pre' =>
        injection hsplit with hea heb
        subst hea
        rw [List.foldl_cons, hstep]
        exact h2 pre' m post heb
    · rintro ⟨h1, h2⟩
      have hsucc : morphSuccess s m0 = false := by
        simpa using h2 [] m0 ms rfl
      have hstep : stepMorpher s m0 = s := stepMorpher_no_success hsucc
      rw [hstep]
      refine ⟨h1, ?_⟩
      intro pre m post hsplit
      have := h2 (m0 :: pre) m post (by rw [List.cons_append, hsplit])
      rw [List.foldl_cons, hstep] at this
      exact this

/-- The pipeline's merged data is nonempty exactly when some morpher in the
list morphs successfully (in the state accumulated before it). -/
theorem runPipe_success_iff (ms : List PipeMorpher) :
    (runPipe ms).morphedData ≠ [] ↔
      ∃ pre m post, ms = pre ++ m :: post ∧
        morphSuccess (runPipe pre) m = true := by
  rw [runPipe, Ne, foldl_morphedData_nil ms ⟨[], []⟩]
  constructor
  · intro h
    by_contra hc
    apply h
    refine ⟨rfl, ?_⟩
    intro pre m post hsplit
    cases hmc : morphSuccess (List.foldl stepMorpher ⟨[], []⟩ pre) m
    · rfl
    · exact absurd ⟨pre, m, post, hsplit, by rw [runPipe]; exact hmc⟩ hc
  · rintro ⟨pre, m, post, hsplit, hsucc⟩ ⟨-, hall⟩
    rw [runPipe] at hsucc
    rw [hall pre m post hsplit] at hsucc
    cases hsucc

theorem mergeFoldl_none (hour : ℕ) (assigns : List (ℕ × List ℚ)) :
    assigns.foldl (mergeStep hour) none = none := by
  induction assigns with
  | nil => rfl
  | cons p rest ih =>
    rw [List.foldl_cons]
    exact ih

theorem mergeFold_some (hour : ℕ) (assigns : List (ℕ × List ℚ)) :
    ∀ es : List (List Char),
      (∀ p ∈ assigns, p.1 < es.length) → (∀ p ∈ assigns, hour < p.2.length) →
      ∃ es', assigns.foldl (mergeStep hour) (some es) = some es' ∧
        es'.length = es.length := by
  induction assigns with
  | nil => intro es _ _; exact ⟨es, rfl, rfl⟩
  | cons p rest ih =>
    intro es hcol hhour
    have hp : p.1 < es.length := hcol p (List.mem_cons_self _ _)
    have hh : hour < p.2.length := hhour p (List.mem_cons_self _ _)
    obtain ⟨v, hv⟩ : ∃ v, p.2.get? hour = some v := by
      rw [List.get?_eq_getElem?]
      exact ⟨p.2[hour], List.getElem?_eq_getElem hh⟩
    have hstep : mergeStep hour (some es) p =
        some (es.set p.1 (format1 v).toList) := by
      simp only [mergeStep]
      rw [if_pos hp, hv]
    rw [List.foldl_cons, hstep]
    obtain ⟨es', h1, h2⟩ := ih (es.set p.1 (format1 v).toList)
      (fun q hq => by
        rw [List.length_set]
        exact hcol q (List.mem_cons_of_mem _ hq))
      (fun q hq => hhour q (List.mem_cons_of_mem _ hq))
    exact ⟨es', h1, by rw [h2, List.length_set]⟩

/-- Value characterization of the per-row assignment fold: under distinct
column keys, field `j` of the rewritten row is the formatted morphed value
when column `j` is assigned, and the original field otherwise. -/
theorem mergeFold_char (hour : ℕ) (assigns : List (ℕ × List ℚ))
    (hnodup : (assigns.map Prod.fst).Nodup) :
    ∀ (es es' : List (List Char)),
      assigns.foldl (mergeStep hour) (some es) = some es' →
      es'.length = es.length ∧
      ∀ j, j < es.length →
        es'.get? j = (match lookupAssoc assigns j with
          | some vs => some ((format1 (vs.getD hour 0)).toList)
          | none => es.get? j) := by
  induction assigns with
  | nil =>
    intro es es' h
    rw [List.foldl_nil] at h
    cases h
    exact ⟨rfl, fun j hj => rfl⟩
  | cons p rest ih =>
    intro es es' h
    rw [List.foldl_cons] at h
    have hnd := List.nodup_cons.mp
      (show (p.1 :: rest.map Prod.fst).Nodup from hnodup)
    by_cases hp : p.1 < es.length
    case neg =>
      have hstep : mergeStep hour (some es) p = none := by
        simp only [mergeStep]
        rw [if_neg hp]
      rw [hstep, mergeFoldl_none] at h
      cases h
    case pos =>
      rcases hv : p.2.get? hour with _ | v
      · have hstep : mergeStep hour (some es) p = none := by
          simp only [mergeStep]
          rw [if_pos hp, hv]
        rw [hstep, mergeFoldl_none] at h
        cases h
      · have hstep : mergeStep hour (some es) p =
            some (es.set p.1 (format1 v).toList) := by
          simp only [mergeStep]
          rw [if_pos hp, hv]
        rw [hstep] at h
        obtain ⟨hlen, hch⟩ := ih hnd.2 _ es' h
        rw [List.length_set] at hlen
        refine ⟨hlen, ?_⟩
        intro j hj
        have hj' : j < (es.set p.1 (format1 v).toList).length := by
          rw [List.length_set]
          exact hj
        have hval := hch j hj'
        by_cases hjp : j = p.1
        · subst hjp
          have hfind : rest.find? (fun q => q.1 == p.1) = none := by
            rw [List.find?_eq_none]
            intro q hq
            simp only [beq_iff_eq]
            intro hqe
            exact hnd.1 (List.mem_map.mpr ⟨q, hq, hqe⟩)
          have hnone : lookupAssoc rest p.1 = none := by
            rw [lookupAssoc, hfind]
            rfl
          have hself : lookupAssoc (p :: rest) p.1 = some p.2 := by
            rw [lookupAssoc, List.find?_cons_of_pos _ (by simp)]
            rfl
          rw [hval, hnone, hself]
          have hvd : p.2.getD hour 0 = v := by
            rw [List.getD_eq_getElem?_getD, ← List.get?_eq_getElem?, hv]
            rfl
          dsimp only
          rw [hvd, List.get?_eq_getElem?, List.getElem?_set_self hp]
        · have hcons : lookupAssoc (p :: rest) j = lookupAssoc rest j := by
            rw [lookupAssoc, lookupAssoc, List.find?_cons_of_neg]
            simp only [beq_iff_eq]
            intro hc
            exact hjp hc.symm
          rw [hval, hcons]
          rcases lookupAssoc rest j with _ | vs
          · rw [List.get?_eq_getElem?, List.get?_eq_getElem?,
              List.getElem?_set_ne (fun hc => hjp hc.symm)]
          · rfl

/-- Per-row characterization of the writer loop. -/
theorem mergeRows_char (assigns : List (ℕ × List ℚ))
    (hnodup : (assigns.map Prod.fst).Nodup) :
    ∀ (rows : List String) (h : ℕ) (outRows : List String),
      mergeRows assigns h rows = some outRows →
      outRows.length = rows.length ∧
      ∀ r line, rows.get? r = some line →
        ∃ es', outRows.get? r = some (String.mk (joinComma es')) ∧
          es'.length = (rowFields line).length ∧
          ∀ j, j < (rowFields line).length →
            es'.get? j = (match lookupAssoc assigns j with
              | some vs => some ((format1 (vs.getD (h + r) 0)).toList)
              | none => (rowFields line).get? j) := by
  intro rows
  induction rows with
  | nil =>
    intro h outRows hm
    rw [mergeRows] at hm
    cases hm
    exact ⟨rfl, fun r line hr => by simp at hr⟩
  | cons l ls ih =>
    intro h outRows hm
    rw [mergeRows] at hm
    rcases hrow : mergeRow assigns h l with _ | l'
    · rw [hrow] at hm
      cases hm
    rcases hrest : mergeRows assigns (h + 1) ls with _ | outs
    · rw [hrow, hrest] at hm
      cases hm
    rw [hrow, hrest] at hm
    simp only [Option.map_some'] at hm
    cases hm
    obtain ⟨hlen, hch⟩ := ih (h + 1) outs hrest
    constructor
    · simp [hlen]
    · intro r line hr
      cases r with
      | zero =>
        rw [List.get?_cons_zero] at hr
        cases hr
        rw [mergeRow] at hrow
        rcases hfold : assigns.foldl (mergeStep h) (some (rowFields l)) with _ | es'
        · rw [hfold] at hrow
          cases hrow
        rw [hfold] at hrow
        simp only [Option.map_some'] at hrow
        cases hrow
        obtain ⟨hl2, hv2⟩ := mergeFold_char h assigns hnodup (rowFields l) es' hfold
        refine ⟨es', by rw [List.get?_cons_zero], hl2, ?_⟩
        intro j hj
        have hv3 := hv2 j hj
        simpa using hv3
      | succ r =>
        rw [List.get?_cons_succ] at hr
        obtain ⟨es', h1, h2, h3⟩ := hch r line hr
        refine ⟨es', by rw [List.get?_cons_succ]; exact h1, h2, ?_⟩
        intro j hj
        have hv3 := h3 j hj
        have harr : h + 1 + r = h + (r + 1) := by omega
        rw [harr] at hv3
        exact hv3

/-- The writer loop succeeds when every assigned column fits every row and
every stored series covers every hour. -/
theorem mergeRows_isSome (assigns : List (ℕ × List ℚ)) :
    ∀ (rows : List String) (h : ℕ),
      (∀ p ∈ assigns, ∀ line ∈ rows, p.1 < (rowFields line).length) →
      (∀ p ∈ assigns, h + rows.length ≤ p.2.length) →
      (mergeRows assigns h rows).isSome := by
  intro rows
  induction rows with
  | nil =>
    intro h _ _
    rw [mergeRows]
    rfl
  | cons l ls ih =>
    intro h hcol hlen
    rw [mergeRows]
    have hrow : (mergeRow assigns h l).isSome := by
      rw [mergeRow]
      obtain ⟨es', h1, _⟩ := mergeFold_some h assigns (rowFields l)
        (fun p hp => hcol p hp l (List.mem_cons_self _ _))
        (fun p hp => by
          have := hlen p hp
          simp only [List.length_cons] at this
          omega)
      rw [h1]
      rfl
    obtain ⟨l', hl'⟩ := Option.isSome_iff_exists.mp hrow
    rw [hl']
    have hrest := ih (h + 1)
      (fun p hp line hline => hcol p hp line (List.mem_cons_of_mem _ hline))
      (fun p hp => by
        have := hlen p hp
        simp only [List.length_cons] at this
        omega)
    obtain ⟨outs, houts⟩ := Option.isSome_iff_exists.mp hrest
    rw [houts]
    rfl

/-- The pipeline's `morphed_data` dict always has distinct column keys. -/
theorem runPipe_keys_nodup (ms : List PipeMorpher) :
    ((runPipe ms).morphedData.map Prod.fst).Nodup := by
  rw [runPipe]
  have hgen : ∀ (s : PipeState), (s.morphedData.map Prod.fst).Nodup →
      (((List.foldl stepMorpher s ms).morphedData).map Prod.fst).Nodup := by
    induction ms with
    | nil =>
      intro s hs
      exact hs
    | cons m rest ih =>
      intro s hs
      rw [List.foldl_cons]
      apply ih
      cases m with
      | plain n c r =>
        simp only [stepMorpher]
        split
        · exact setAssoc_keys_nodup _ _ _ hs
        · exact hs
      | dew c f =>
        simp only [stepMorpher]
        rcases lookupAssoc s.storedResults "TEMP" with _ | t
        · cases lookupAssoc s.storedResults "RH" <;> exact hs
        rcases lookupAssoc s.storedResults "RH" with _ | r
        · exact hs
        dsimp only
        by_cases htr : truthy (f t r) = true
        · rw [if_pos htr]
          exact setAssoc_keys_nodup _ _ _ hs
        · rw [if_neg htr]
          exact hs
  exact hgen ⟨[], []⟩ (by simp)

/-- C3: (a) when the result cache before the dew-point morpher lacks a
`'TEMP'` or an `'RH'` entry, the pipeline state after the whole list is the
same as if the dew-point morpher were absent (it is skipped, contributes no
merged column, and the remaining morphers run unchanged); and (b) under
row/series well-formedness, the run produces an output exactly when at least
one morpher in the list morphs successfully. -/
theorem pipeline_dew_dependency :
    (∀ (ms1 ms2 : List PipeMorpher) (c : ℕ)
        (f : List ℚ → List ℚ → Option (List ℚ)),
      lookupAssoc (runPipe ms1).storedResults "TEMP" = none ∨
        lookupAssoc (runPipe ms1).storedResults "RH" = none →
      runPipe (ms1 ++ PipeMorpher.dew c f :: ms2) = runPipe (ms1 ++ ms2)) ∧
    (∀ (fileLines : List String) (ms : List PipeMorpher),
      8 ≤ fileLines.length →
      (∀ p ∈ (runPipe ms).morphedData, ∀ line ∈ fileLines.drop 8,
        p.1 < (rowFields line).length) →
      (∀ p ∈ (runPipe ms).morphedData,
        (fileLines.drop 8).length ≤ p.2.length) →
      ((createMorphedEpw fileLines ms).isSome ↔
        ∃ pre m post, ms = pre ++ m :: post ∧
          morphSuccess (runPipe pre) m = true)) := by
  constructor
  · intro ms1 ms2 c f hdep
    rw [runPipe, runPipe, List.foldl_append, List.foldl_append, List.foldl_cons]
    have hstep : stepMorpher (List.foldl stepMorpher ⟨[], []⟩ ms1)
        (PipeMorpher.dew c f) = List.foldl stepMorpher ⟨[], []⟩ ms1 := by
      simp only [stepMorpher]
      rw [runPipe] at hdep
      rcases hdep with h | h
      · rw [h]
      · rw [h]
        cases lookupAssoc (List.foldl stepMorpher ⟨[], []⟩ ms1).storedResults "TEMP" <;>
          rfl
    rw [hstep]
  · intro fileLines ms h8 hcols hlens
    simp only [createMorphedEpw]
    rw [if_neg (by omega)]
    split
    · next hemp =>
      simp only [Option.isSome_none, Bool.false_eq_true, false_iff]
      rintro ⟨pre, m, post, hsplit, hsucc⟩
      have hne : (runPipe ms).morphedData ≠ [] :=
        (runPipe_success_iff ms).mpr ⟨pre, m, post, hsplit, hsucc⟩
      rw [List.isEmpty_iff] at hemp
      exact hne hemp
    · next hemp =>
      have hmr : (mergeRows (runPipe ms).morphedData 0 (fileLines.drop 8)).isSome := by
        apply mergeRows_isSome
        · intro p hp line hline
          exact hcols p hp line hline
        · intro p hp
          have := hlens p hp
          omega
      obtain ⟨rows', hrows'⟩ := Option.isSome_iff_exists.mp hmr
      rw [hrows']
      simp only [Option.map_some', Option.isSome_some, true_iff]
      apply (runPipe_success_iff ms).mp
      intro hc
      exact hemp (by rw [List.isEmpty_iff]; exact hc)

/-- C3 witness: a pipeline whose dew-point morpher runs first (empty cache:
both dependencies missing) behaves exactly like the pipeline without it, and
a one-morpher pipeline over a well-formed 9-line EPW file succeeds iff some
morpher succeeded. -/
theorem pipeline_dew_dependency_witness :
    runPipe ([] ++ PipeMorpher.dew 7 (fun _ _ => none) ::
        [PipeMorpher.plain "TEMP" 6 (some [5])]) =
      runPipe ([] ++ [PipeMorpher.plain "TEMP" 6 (some [5])]) ∧
    ((createMorphedEpw ["h1", "h2", "h3", "h4", "h5", "h6", "h7", "h8", "1,2,3"]
        [PipeMorpher.plain "TEMP" 1 (some [7])]).isSome ↔
      ∃ pre m post,
        [PipeMorpher.plain "TEMP" 1 (some [7])] = pre ++ m :: post ∧
        morphSuccess (runPipe pre) m = true) := by
  constructor
  · exact pipeline_dew_dependency.1 [] [PipeMorpher.plain "TEMP" 6 (some [5])] 7
      (fun _ _ => none) (Or.inl rfl)
  · exact pipeline_dew_dependency.2
      ["h1", "h2", "h3", "h4", "h5", "h6", "h7", "h8", "1,2,3"]
      [PipeMorpher.plain "TEMP" 1 (some [7])]
      (by decide) (by decide) (by decide)

/-- C9: a successful write keeps the 8-line header verbatim, emits exactly
one output line per input line, and rewrites each data row field-by-field:
fields at assigned column indices carry the morphed value formatted to one
decimal place, every other field is the original field of that row. -/
theorem writer_frame (fileLines : List String) (ms : List PipeMorpher)
    (out : List String) (hout : createMorphedEpw fileLines ms = some out) :
    out.take 8 = fileLines.take 8 ∧
    out.length = fileLines.length ∧
    ∀ r line, (fileLines.drop 8).get? r = some line →
      ∃ es', out.get? (8 + r) = some (String.mk (joinComma es')) ∧
        es'.length = (rowFields line).length ∧
        ∀ j, j < (rowFields line).length →
          es'.get? j = (match lookupAssoc (runPipe ms).morphedData j with
            | some vs => some ((format1 (vs.getD r 0)).toList)
            | none => (rowFields line).get? j) := by
  simp only [createMorphedEpw] at hout
  split at hout
  · cases hout
  next h8 =>
  split at hout
  · cases hout
  next hemp =>
  rcases hmr : mergeRows (runPipe ms).morphedData 0 (fileLines.drop 8) with _ | rows'
  · rw [hmr] at hout
    cases hout
  rw [hmr] at hout
  simp only [Option.map_some'] at hout
  cases hout
  have h8' : 8 ≤ fileLines.length := by omega
  have h8l : (fileLines.take 8).length = 8 := by
    rw [List.length_take]
    omega
  obtain ⟨hlen, hch⟩ := mergeRows_char (runPipe ms).morphedData
    (runPipe_keys_nodup ms) (fileLines.drop 8) 0 rows' hmr
  refine ⟨?_, ?_, ?_⟩
  · rw [List.take_append_eq_append_take, h8l, Nat.sub_self, List.take_zero,
      List.append_nil, List.take_take, Nat.min_self]
  · rw [List.length_append, h8l, hlen, List.length_drop]
    omega
  · intro r line hr
    obtain ⟨es', h1, h2, h3⟩ := hch r line hr
    refine ⟨es', ?_, h2, ?_⟩
    · rw [List.get?_eq_getElem?, List.getElem?_append_right (by omega : (fileLines.take 8).length ≤ 8 + r)]
      rw [h8l]
      have hsub : 8 + r - 8 = r := by omega
      rw [hsub, ← List.get?_eq_getElem?]
      exact h1
    · intro j hj
      have hv := h3 j hj
      simpa using hv

/-- C9 witness: a 9-line file (8 headers, one data row `1,2,3`) with one
morphed column (index 1, value 7) writes `1,7.0,3` and keeps everything
else. -/
theorem writer_frame_witness :
    ((["h1", "h2", "h3", "h4", "h5", "h6", "h7", "h8", "1,7.0,3"] : List String).take 8 =
      (["h1", "h2", "h3", "h4", "h5", "h6", "h7", "h8", "1,2,3"] : List String).take 8) ∧
    ((["h1", "h2", "h3", "h4", "h5", "h6", "h7", "h8", "1,7.0,3"] : List String).length =
      (["h1", "h2", "h3", "h4", "h5", "h6", "h7", "h8", "1,2,3"] : List String).length) ∧
    ∀ r line,
      ((["h1", "h2", "h3", "h4", "h5", "h6", "h7", "h8", "1,2,3"] : List String).drop 8).get? r =
        some line →
      ∃ es',
        (["h1", "h2", "h3", "h4", "h5", "h6", "h7", "h8", "1,7.0,3"] : List String).get? (8 + r) =
          some (String.mk (joinComma es')) ∧
        es'.length = (rowFields line).length ∧
        ∀ j, j < (rowFields line).length →
          es'.get? j =
            (match lookupAssoc
                (runPipe [PipeMorpher.plain "TEMP" 1 (some [7])]).morphedData j with
              | some vs => some ((format1 (vs.getD r 0)).toList)
              | none => (rowFields line).get? j) :=
  writer_frame ["h1", "h2", "h3", "h4", "h5", "h6", "h7", "h8", "1,2,3"]
    [PipeMorpher.plain "TEMP" 1 (some [7])]
    ["h1", "h2", "h3", "h4", "h5", "h6", "h7", "h8", "1,7.0,3"]
    (by decide)

end FWF
